import Mathlib

set_option maxRecDepth 1000000

/-!
Shallow embedding of the technical-indicator pipeline and the two scoring
engines of the repository (src/trading_system.py, version 2.1, and
src/stock_trader.py, version 1.2).

Modelling conventions.

Real (floating point) arithmetic is modelled with rationals.  A pandas NaN
(missing value from insufficient history) is modelled as Option.none, and a
comparison in which either side is missing is false, exactly as an IEEE
comparison against NaN is false; the helpers oltB and ogtB implement this.

Rolling windows follow pandas semantics with the default
min periods = window: position i of a rolling computation over a fully
defined series is defined exactly when i + 1 is at least the window size,
and positions with less history are missing.

Division corner cases follow IEEE semantics of numpy floats, made explicit
where the source relies on them:
- in calculate_rsi, gain / loss is +infinity when loss = 0 < gain, so that
  100 - 100 / (1 + gain/loss) evaluates to exactly 100; when
  gain = loss = 0 the quotient is NaN and the RSI value is missing;
- in calculate_kdj the raw RSV is NaN when the rolling high/low range is
  zero (for bars satisfying low <= close <= high the numerator is then 0,
  giving 0/0); the source then replaces every NaN by 50 with fillna;
- int(x) applied to NaN raises ValueError and applied to infinity raises
  OverflowError; both are modelled as explicit error values of Err.

A rolling standard deviation is carried around in squared form (halfSq
below), because square roots leave the rationals.  Every use of a band
value in the source is a comparison, and each such comparison is encoded
by the equivalent sign-and-square comparison; the encoding is justified
next to each definition.
-/

/-- One OHLCV bar of the input series (src data model). -/
structure Bar where
  opn : ℚ
  high : ℚ
  low : ℚ
  close : ℚ
  volume : ℚ
deriving DecidableEq, Repr

def closesOf (df : List Bar) : List ℚ := df.map Bar.close

def opensOf (df : List Bar) : List ℚ := df.map Bar.opn

def highsOf (df : List Bar) : List ℚ := df.map Bar.high

def lowsOf (df : List Bar) : List ℚ := df.map Bar.low

def volumesOf (df : List Bar) : List ℚ := df.map Bar.volume

/-- Comparison a < b on possibly missing values: false when either side is
missing, as for IEEE NaN. -/
def oltB : Option ℚ → Option ℚ → Bool
  | some a, some b => decide (a < b)
  | _, _ => false

/-- Comparison a > b on possibly missing values: false when either side is
missing. -/
def ogtB (a b : Option ℚ) : Bool := oltB b a

/-- Trailing window of width w ending at position i (pandas rolling
window). -/
def windowAt (w : ℕ) (xs : List ℚ) (i : ℕ) : List ℚ :=
  (xs.take (i + 1)).drop (i + 1 - w)

/-- Position-aligned rolling computation with min periods = window: the
value at i is defined exactly when at least w observations exist. -/
def rollingApply (w : ℕ) (f : List ℚ → ℚ) (xs : List ℚ) : List (Option ℚ) :=
  (List.range xs.length).map
    (fun i => if w ≤ i + 1 then some (f (windowAt w xs i)) else none)

/-- Mean of a window as pandas rolling mean computes it (sum over window
size). -/
def rollingMean (w : ℕ) (xs : List ℚ) : List (Option ℚ) :=
  rollingApply w (fun l => l.sum / (w : ℚ)) xs

def winMax : List ℚ → ℚ
  | [] => 0
  | x :: xs => xs.foldl max x

def winMin : List ℚ → ℚ
  | [] => 0
  | x :: xs => xs.foldl min x

/-- Rolling maximum (pandas rolling max); the empty-window default is never
reached at defined positions. -/
def rollingMax (w : ℕ) (xs : List ℚ) : List (Option ℚ) :=
  rollingApply w winMax xs

/-- Rolling minimum (pandas rolling min). -/
def rollingMin (w : ℕ) (xs : List ℚ) : List (Option ℚ) :=
  rollingApply w winMin xs

/-- Sample variance of a window: pandas rolling std uses ddof = 1, so the
divisor is the window size minus one. -/
def sampVarWin (l : List ℚ) : ℚ :=
  let n : ℚ := (l.length : ℚ)
  let m : ℚ := l.sum / n
  (l.map (fun x => (x - m) * (x - m))).sum / (n - 1)

/-- Rolling sample variance, the square of the rolling standard deviation
computed by the source through pandas rolling std. -/
def rollingVarSamp (w : ℕ) (xs : List ℚ) : List (Option ℚ) :=
  rollingApply w sampVarWin xs

/-- Population variance of a window (divisor = window size).  This is the
quantity the specification words name: the claim about Bollinger Bands
says the half width is k times the rolling population standard
deviation. -/
def popVarWin (l : List ℚ) : ℚ :=
  let n : ℚ := (l.length : ℚ)
  let m : ℚ := l.sum / n
  (l.map (fun x => (x - m) * (x - m))).sum / n

/-- Rolling population variance, modelling the wording of the
specification (not the source, which uses the sample variant). -/
def rollingVarPop (w : ℕ) (xs : List ℚ) : List (Option ℚ) :=
  rollingApply w popVarWin xs

/-- Per-bar difference series (pandas diff): missing at position 0. -/
def diffO : List ℚ → List (Option ℚ)
  | [] => []
  | x :: xs => none :: List.zipWith (fun b a => some (b - a)) xs (x :: xs)

def ewmGo (a : ℚ) (y : ℚ) : List ℚ → List ℚ
  | [] => [y]
  | x :: xs => y :: ewmGo a (a * x + (1 - a) * y) xs

/-- Recursive exponential smoothing, pandas ewm with adjust = False: the
first output equals the first input, and each later output is
a * x + (1 - a) * previous. -/
def ewmAlpha (a : ℚ) : List ℚ → List ℚ
  | [] => []
  | x :: xs => ewmGo a x xs

/-- pandas ewm given by span: smoothing factor 2 / (span + 1). -/
def ewmSpan (span : ℕ) (xs : List ℚ) : List ℚ :=
  ewmAlpha (2 / ((span : ℚ) + 1)) xs

def zip3With (f : ℚ → Option ℚ → Option ℚ → Option ℚ) :
    List ℚ → List (Option ℚ) → List (Option ℚ) → List (Option ℚ)
  | a :: as, b :: bs, c :: cs => f a b c :: zip3With f as bs cs
  | _, _, _ => []

/-- Python int() truncates toward zero. -/
def truncQ (q : ℚ) : ℤ :=
  if 0 ≤ q then Rat.floor q else - Rat.floor (-q)

/-- Outcome of a run that may raise: an out-of-bounds iloc access
(IndexError), int() of NaN (ValueError), or int() of infinity
(OverflowError). -/
inductive Err where
  | indexError : Err
  | nanToInt : Err
  | infToInt : Err
deriving DecidableEq, Repr

/-- Trend category returned by analyze_trend (the five source strings
mapped to an enumeration). -/
inductive Trend where
  | strongUp : Trend
  | up : Trend
  | strongDown : Trend
  | down : Trend
  | sideways : Trend
deriving DecidableEq, Repr

/-- MACD crossover state computed by analyze_signals. -/
inductive Cross where
  | golden : Cross
  | dead : Cross
  | noCross : Cross
deriving DecidableEq, Repr

/-- Moving average arrangement computed by analyze_signals. -/
inductive Arrange where
  | bull : Arrange
  | bear : Arrange
  | neutral : Arrange
deriving DecidableEq, Repr

/-- The five decision bands (source strings mapped to an enumeration). -/
inductive Decision where
  | strongBuy : Decision
  | buy : Decision
  | hold : Decision
  | sell : Decision
  | strongSell : Decision
deriving DecidableEq, Repr

/-! ## Indicator engine (trading_system.py lines 23 to 114, identical
formulas in stock_trader.py calculate_indicators) -/

/-- Positive parts of the price deltas: delta.where(delta > 0, 0).  The
missing delta at position 0 compares false against 0 and becomes 0. -/
def gainsOf (prices : List ℚ) : List ℚ :=
  (diffO prices).map (fun d => match d with
    | some x => if 0 < x then x else 0
    | none => 0)

/-- Magnitudes of the negative price deltas: (-delta.where(delta < 0, 0)). -/
def lossesOf (prices : List ℚ) : List ℚ :=
  (diffO prices).map (fun d => match d with
    | some x => if x < 0 then -x else 0
    | none => 0)

/-- Rolling mean gain used by calculate_rsi. -/
def rsiAvgGain (prices : List ℚ) (period : ℕ) : List (Option ℚ) :=
  rollingMean period (gainsOf prices)

/-- Rolling mean loss used by calculate_rsi. -/
def rsiAvgLoss (prices : List ℚ) (period : ℕ) : List (Option ℚ) :=
  rollingMean period (lossesOf prices)

/-- calculate_rsi: rs = gain/loss and rsi = 100 - 100/(1+rs).  With
loss = 0 < gain the float quotient is +infinity and the expression
evaluates to exactly 100; with gain = loss = 0 it is NaN (missing). -/
def calculate_rsi (prices : List ℚ) (period : ℕ) : List (Option ℚ) :=
  List.zipWith
    (fun og ol => match og, ol with
      | some g, some l =>
          if l = 0 then (if g = 0 then none else some 100)
          else some (100 - 100 / (1 + g / l))
      | _, _ => none)
    (rsiAvgGain prices period) (rsiAvgLoss prices period)

structure MacdOut where
  line : List ℚ
  signalLine : List ℚ
  hist : List ℚ
deriving DecidableEq, Repr

/-- calculate_macd: difference of two span EMAs, its own span-9 EMA, and
the histogram. -/
def calculate_macd (prices : List ℚ) (fast slow sig : ℕ) : MacdOut :=
  let emaFast := ewmSpan fast prices
  let emaSlow := ewmSpan slow prices
  let line := List.zipWith (fun a b => a - b) emaFast emaSlow
  let signalLine := ewmSpan sig line
  { line := line, signalLine := signalLine,
    hist := List.zipWith (fun a b => a - b) line signalLine }

structure KdjOut where
  k : List ℚ
  d : List ℚ
  j : List ℚ
deriving DecidableEq, Repr

/-- Raw RSV of calculate_kdj before fillna: missing while the 9-bar window
is not full, and missing (0/0 = NaN) when the rolling range is zero, since
for bars with low <= close <= high the numerator is zero then. -/
def kdjRsvRaw (high low close : List ℚ) (n : ℕ) : List (Option ℚ) :=
  zip3With
    (fun c lo hi => match lo, hi with
      | some l, some h =>
          if h = l then none else some ((c - l) / (h - l) * 100)
      | _, _ => none)
    close (rollingMin n low) (rollingMax n high)

/-- calculate_kdj: RSV with every missing entry replaced by 50 (fillna),
then two recursive EMAs with factors 1/m1 and 1/m2, and j = 3k - 2d.
Because of the fillna the K, D and J series are total. -/
def calculate_kdj (high low close : List ℚ) (n m1 m2 : ℕ) : KdjOut :=
  let rsv : List ℚ := (kdjRsvRaw high low close n).map (fun o => o.getD 50)
  let k := ewmAlpha (1 / (m1 : ℚ)) rsv
  let d := ewmAlpha (1 / (m2 : ℚ)) k
  { k := k, d := d, j := List.zipWith (fun a b => 3 * a - 2 * b) k d }

/-- calculate_ma for a single period; the source builds the dictionary for
periods 5, 20 and 60 from exactly this rolling mean. -/
def calculate_ma (prices : List ℚ) (period : ℕ) : List (Option ℚ) :=
  rollingMean period prices

structure BollOut where
  mid : List (Option ℚ)
  halfSq : List (Option ℚ)
deriving DecidableEq, Repr

/-- calculate_bollinger_bands.  The source returns
(mid + sd * std, mid, mid - sd * std) with std the rolling sample standard
deviation.  The band half width sd * std leaves the rationals, so it is
carried as its square halfSq = sd^2 * variance; upper and lower are
mid plus and minus the square root of halfSq, and every comparison against
a band below is encoded through halfSq. -/
def calculate_bollinger_bands (prices : List ℚ) (period : ℕ) (sd : ℚ) : BollOut :=
  { mid := rollingMean period prices,
    halfSq := (rollingVarSamp period prices).map
      (Option.map (fun v => sd * sd * v)) }

/-- True range of consecutive bars: max(high - low, |high - prevClose|,
|low - prevClose|). -/
def trGo (prev : Bar) : List Bar → List ℚ
  | [] => []
  | b :: bs =>
      max (b.high - b.low) (max |b.high - prev.close| |b.low - prev.close|) ::
        trGo b bs

/-- True-range series; the first bar has no previous close, and the pandas
max over the remaining column reduces to high - low there. -/
def trueRanges : List Bar → List ℚ
  | [] => []
  | b :: bs => (b.high - b.low) :: trGo b bs

/-- calculate_atr: rolling mean of the true range. -/
def calculate_atr (df : List Bar) (period : ℕ) : List (Option ℚ) :=
  rollingMean period (trueRanges df)

structure SROut where
  resistance1 : List (Option ℚ)
  resistance2 : List (Option ℚ)
  support1 : List (Option ℚ)
  support2 : List (Option ℚ)
deriving DecidableEq, Repr

/-- calculate_support_resistance: rolling extremes of the close plus the
0.382 retracement levels. -/
def calculate_support_resistance (close : List ℚ) (period : ℕ) : SROut :=
  let highest := rollingMax period close
  let lowest := rollingMin period close
  { resistance1 := highest,
    resistance2 := List.zipWith
      (fun oh ol => oh.bind (fun h => ol.map (fun l => h - (h - l) * (191/500))))
      highest lowest,
    support1 := lowest,
    support2 := List.zipWith
      (fun oh ol => oh.bind (fun h => ol.map (fun l => l + (h - l) * (191/500))))
      highest lowest }

/-- calculate_volume_ma: rolling mean of the volume column. -/
def calculate_volume_ma (volume : List ℚ) (period : ℕ) : List (Option ℚ) :=
  rollingMean period volume

/-- analyze_trend: the chained strict comparisons of the source, with a
comparison against a missing average false as for NaN. -/
def analyze_trend (ma5 ma20 ma60 : Option ℚ) : Trend :=
  if ogtB ma5 ma20 && ogtB ma20 ma60 then Trend.strongUp
  else if ogtB ma5 ma20 then Trend.up
  else if oltB ma5 ma20 && oltB ma20 ma60 then Trend.strongDown
  else if oltB ma5 ma20 then Trend.down
  else Trend.sideways

/-- calculate_position_size: risk amount over ATR, converted with int().
A missing ATR gives NaN and int(NaN) raises ValueError; ATR = 0 gives a
float infinity (or NaN when the risk amount is also 0) and int() raises.
The price argument is accepted and unused, as in the source. -/
def calculate_position_size (atr : Option ℚ) (price accountSize riskPercent : ℚ) :
    Except Err ℤ :=
  match atr with
  | none => Except.error Err.nanToInt
  | some a =>
      if a = 0 then
        (if accountSize * (riskPercent / 100) = 0 then Except.error Err.nanToInt
         else Except.error Err.infToInt)
      else Except.ok (truncQ (accountSize * (riskPercent / 100) / a))

/-! ## Snapshot and dual-axis scoring engine (trading_system.py
generate_signal, lines 138 to 292) -/

/-- Latest values pulled out of the derived series by generate_signal. -/
structure Snap where
  rsi : Option ℚ
  macdHist : ℚ
  kdjK : ℚ
  kdjD : ℚ
  kdjJ : ℚ
  ma5 : Option ℚ
  ma20 : Option ℚ
  ma60 : Option ℚ
  atr : Option ℚ
  bbMid : Option ℚ
  bbHalfSq : Option ℚ
  close : ℚ
  prevClose : Option ℚ
  volumeRatioVal : ℚ
  trend : Trend
deriving DecidableEq, Repr

def lastOpt (xs : List (Option ℚ)) : Option ℚ := xs.getLastD none

/-- Second to last element of a list, if it exists (iloc index -2). -/
def penult (xs : List ℚ) : Option ℚ := xs.reverse.get? 1

/-- Latest-row extraction of generate_signal (lines 156 to 177): every
indicator is computed on the full series and its last value is read; the
volume ratio defaults to 1 unless the latest volume MA is a number greater
than 0, and the trend is classified from the three latest MAs. -/
def buildSnap (df : List Bar) : Except Err Snap :=
  if df.length = 0 then Except.error Err.indexError else
  let close := closesOf df
  let volume := volumesOf df
  let macdT := calculate_macd close 12 26 9
  let kdjT := calculate_kdj (highsOf df) (lowsOf df) close 9 3 3
  let boll := calculate_bollinger_bands close 20 2
  let ma5L := lastOpt (calculate_ma close 5)
  let ma20L := lastOpt (calculate_ma close 20)
  let ma60L := lastOpt (calculate_ma close 60)
  let volL := volume.getLastD 0
  let volMAL := lastOpt (calculate_volume_ma volume 20)
  Except.ok
    { rsi := lastOpt (calculate_rsi close 14),
      macdHist := macdT.hist.getLastD 0,
      kdjK := kdjT.k.getLastD 0,
      kdjD := kdjT.d.getLastD 0,
      kdjJ := kdjT.j.getLastD 0,
      ma5 := ma5L, ma20 := ma20L, ma60 := ma60L,
      atr := lastOpt (calculate_atr df 14),
      bbMid := lastOpt boll.mid,
      bbHalfSq := lastOpt boll.halfSq,
      close := close.getLastD 0,
      prevClose := penult close,
      volumeRatioVal :=
        (match volMAL with
         | some m => if 0 < m then volL / m else 1
         | none => 1),
      trend := analyze_trend ma5L ma20L ma60L }

/-- Encoding of c < mid - sqrt(halfSq), the comparison against the lower
band: for halfSq >= 0 it holds exactly when mid - c is positive and its
square exceeds halfSq.  A negative halfSq cannot arise from a real
standard deviation; the guard keeps the Boolean false there, as a NaN
band would be. -/
def ltBelowBandB (mid c halfSq : ℚ) : Bool :=
  decide (0 ≤ halfSq) && decide (0 < mid - c) && decide (halfSq < (mid - c) * (mid - c))

/-- RSI rule of generate_signal (lines 184 to 191). -/
def ruleRSI (r : Option ℚ) : ℕ × ℕ :=
  if oltB r (some 30) then (20, 0)
  else if oltB r (some 40) then (10, 0)
  else if ogtB r (some 70) then (0, 20)
  else if ogtB r (some 60) then (0, 10)
  else (0, 0)

/-- MACD histogram rule (lines 194 to 197): the else branch charges the
sell side. -/
def ruleMACDHist (h : ℚ) : ℕ × ℕ :=
  if 0 < h then (15, 0) else (0, 15)

/-- KDJ overbought/oversold rule (lines 200 to 203). -/
def ruleKDJZone (k j : ℚ) : ℕ × ℕ :=
  if k < 20 ∨ j < 0 then (15, 0)
  else if 80 < k ∨ 100 < j then (0, 15)
  else (0, 0)

/-- KDJ K versus D rule (lines 205 to 208): the else branch charges the
sell side. -/
def ruleKDJCross (k d : ℚ) : ℕ × ℕ :=
  if d < k then (10, 0) else (0, 10)

/-- Moving average rule (lines 211 to 214): the else branch charges the
sell side, also when ma5 or ma20 is missing and the comparison is
false. -/
def ruleMA (ma5 ma20 : Option ℚ) : ℕ × ℕ :=
  if ogtB ma5 ma20 then (10, 0) else (0, 10)

/-- Volume rule (lines 217 to 221): only entered when the volume ratio
exceeds 1.5; inside, close.iloc[-2] is read, which raises IndexError when
the series has fewer than two bars. -/
def ruleVolume (vr c : ℚ) (prevC : Option ℚ) : Except Err (ℕ × ℕ) :=
  if 3/2 < vr then
    match prevC with
    | none => Except.error Err.indexError
    | some pc => if pc < c then Except.ok (10, 0) else Except.ok (0, 10)
  else Except.ok (0, 0)

/-- Trend rule (lines 224 to 231). -/
def ruleTrend : Trend → ℕ × ℕ
  | Trend.strongUp => (10, 0)
  | Trend.strongDown => (0, 10)
  | Trend.up => (5, 0)
  | Trend.down => (0, 5)
  | Trend.sideways => (0, 0)

/-- Bollinger rule (lines 234 to 237): close below the lower band buys,
close above the upper band sells; a missing band never fires. -/
def ruleBoll (c : ℚ) (mid halfSq : Option ℚ) : ℕ × ℕ :=
  match mid, halfSq with
  | some m, some hs =>
      if ltBelowBandB m c hs then (5, 0)
      else if ltBelowBandB c m hs then (0, 5)
      else (0, 0)
  | _, _ => (0, 0)

/-- The dual-axis scoring block of generate_signal (lines 180 to 237) in
source order; each block adds its weights to the two accumulators
independently of the others. -/
def computeScores (s : Snap) : Except Err (ℕ × ℕ) := do
  let p1 := ruleRSI s.rsi
  let p2 := ruleMACDHist s.macdHist
  let p3 := ruleKDJZone s.kdjK s.kdjJ
  let p4 := ruleKDJCross s.kdjK s.kdjD
  let p5 := ruleMA s.ma5 s.ma20
  let p6 ← ruleVolume s.volumeRatioVal s.close s.prevClose
  let p7 := ruleTrend s.trend
  let p8 := ruleBoll s.close s.bbMid s.bbHalfSq
  pure (p1.1 + p2.1 + p3.1 + p4.1 + p5.1 + p6.1 + p7.1 + p8.1,
        p1.2 + p2.2 + p3.2 + p4.2 + p5.2 + p6.2 + p7.2 + p8.2)

/-- Decision bands of generate_signal (lines 243 to 252): buy side checked
before sell side, high thresholds first. -/
def decideDual (buyScore sellScore : ℕ) : Decision :=
  if 55 ≤ buyScore then Decision.strongBuy
  else if 35 ≤ buyScore then Decision.buy
  else if 55 ≤ sellScore then Decision.strongSell
  else if 35 ≤ sellScore then Decision.sell
  else Decision.hold

/-- Output record of generate_signal, restricted to the analysis fields
(the report-only rounded display strings are presentation). -/
structure SigResult where
  latestPrice : ℚ
  rsi : Option ℚ
  atr : Option ℚ
  trend : Trend
  buyScore : ℕ
  sellScore : ℕ
  decision : Decision
  positionSize : ℤ
deriving DecidableEq, Repr

/-- generate_signal: snapshot, scoring, position size (computed before the
decision, line 240, so a zero or missing ATR aborts the whole analysis),
then the decision bands. -/
def generate_signal (df : List Bar) : Except Err SigResult := do
  let s ← buildSnap df
  let sc ← computeScores s
  let pos ← calculate_position_size s.atr s.close 100000 2
  pure { latestPrice := s.close, rsi := s.rsi, atr := s.atr, trend := s.trend,
         buyScore := sc.1, sellScore := sc.2,
         decision := decideDual sc.1 sc.2, positionSize := pos }

/-! ## Single-axis engine (stock_trader.py lines 33 to 167) -/

/-- Snapshot built by analyze_signals (lines 66 to 101).  The Bollinger
band position is determined by close, bbMid and bbHalfSq, see
make_decision. -/
structure Signals where
  rsi : Option ℚ
  macd : ℚ
  macdSignal : ℚ
  macdHist : ℚ
  macdCross : Cross
  ma5 : Option ℚ
  ma20 : Option ℚ
  ma60 : Option ℚ
  maArrange : Arrange
  close : ℚ
  bbMid : Option ℚ
  bbHalfSq : Option ℚ
  volume : ℚ
  volumeRatioVal : ℚ
  priceChange : ℚ
deriving DecidableEq, Repr

/-- Second to last element with a default (iloc index -2 after a length
guard). -/
def penultD (xs : List ℚ) (dflt : ℚ) : ℚ := (xs.reverse.get? 1).getD dflt

/-- analyze_signals (with the indicator columns of calculate_indicators,
lines 33 to 63, computed first as trade_signal does).  latest = iloc[-1]
and prev = iloc[-2] are read unconditionally, so a series with fewer than
two bars raises IndexError.  The price change divides by the latest open;
the embedding covers series with nonzero opens (the data model constrains
bars so). -/
def analyze_signals (df : List Bar) : Except Err Signals :=
  if df.length < 2 then Except.error Err.indexError else
  let close := closesOf df
  let macdT := calculate_macd close 12 26 9
  let macdL := macdT.line.getLastD 0
  let macdP := penultD macdT.line 0
  let sigL := macdT.signalLine.getLastD 0
  let sigP := penultD macdT.signalLine 0
  let ma5L := lastOpt (calculate_ma close 5)
  let ma20L := lastOpt (calculate_ma close 20)
  let ma60L := lastOpt (calculate_ma close 60)
  let boll := calculate_bollinger_bands close 20 2
  let volMAL := lastOpt (calculate_volume_ma (volumesOf df) 20)
  let volL := (volumesOf df).getLastD 0
  let openL := (opensOf df).getLastD 0
  let closeL := close.getLastD 0
  Except.ok
    { rsi := lastOpt (calculate_rsi close 14),
      macd := macdL, macdSignal := sigL,
      macdHist := macdT.hist.getLastD 0,
      macdCross :=
        (if macdP ≤ sigP ∧ sigL < macdL then Cross.golden
         else if sigP ≤ macdP ∧ macdL < sigL then Cross.dead
         else Cross.noCross),
      ma5 := ma5L, ma20 := ma20L, ma60 := ma60L,
      maArrange :=
        (if ogtB ma5L ma20L && ogtB ma20L ma60L then Arrange.bull
         else if oltB ma5L ma20L && oltB ma20L ma60L then Arrange.bear
         else Arrange.neutral),
      close := closeL,
      bbMid := lastOpt boll.mid,
      bbHalfSq := lastOpt boll.halfSq,
      volume := volL,
      volumeRatioVal :=
        (match volMAL with
         | some m => if 0 < m then volL / m else 1
         | none => 1),
      priceChange := (closeL - openL) / openL * 100 }

/-- Encoding of the test BB_position < 0.2 of make_decision.  With
h = sqrt(halfSq) the position is (c - (mid - h)) / (2h), so position < 1/5
is mid - c > (3/5) h, which for halfSq > 0 holds exactly when mid - c is
positive and 25 (mid - c)^2 > 9 halfSq. -/
def bbPosLowB (mid c halfSq : ℚ) : Bool :=
  decide (0 < mid - c) && decide (9 * halfSq < 25 * ((mid - c) * (mid - c)))

/-- Encoding of BB_position > 0.8: c - mid > (3/5) h, symmetric to
bbPosLowB. -/
def bbPosHighB (mid c halfSq : ℚ) : Bool :=
  decide (0 < c - mid) && decide (9 * halfSq < 25 * ((c - mid) * (c - mid)))

/-- RSI rule of make_decision (lines 110 to 117): an explicit isna guard
skips a missing RSI. -/
def sRuleRSI (r : Option ℚ) : ℤ × List String :=
  match r with
  | none => (0, [])
  | some x =>
      if x < 30 then (2, ["RSI oversold"])
      else if 70 < x then (-2, ["RSI overbought"])
      else (0, [])

/-- MACD crossover rule (lines 120 to 125). -/
def sRuleCross : Cross → ℤ × List String
  | Cross.golden => (2, ["MACD golden cross"])
  | Cross.dead => (-2, ["MACD dead cross"])
  | Cross.noCross => (0, [])

/-- MACD above zero rule (lines 127 to 129). -/
def sRuleMACDZero (m : ℚ) : ℤ × List String :=
  if 0 < m then (1, ["MACD above zero"]) else (0, [])

/-- Moving average arrangement rule (lines 132 to 137). -/
def sRuleArrange : Arrange → ℤ × List String
  | Arrange.bull => (2, ["MA bull arrangement"])
  | Arrange.bear => (-2, ["MA bear arrangement"])
  | Arrange.neutral => (0, [])

/-- Volume rule (lines 140 to 145). -/
def sRuleVolume (vr pc : ℚ) : ℤ × List String :=
  if 3/2 < vr ∧ 2 < pc then (1, ["volume up"])
  else if 3/2 < vr ∧ pc < -2 then (-1, ["volume down"])
  else (0, [])

/-- Bollinger position rule (lines 148 to 153).  The source computes
BB_position in analyze_signals as (close - lower) / (upper - lower) when
upper and lower differ and 0.5 otherwise; with missing bands both float
comparisons against NaN are false.  Here: missing bands or a zero (or
negative, unreachable) halfSq never fire, otherwise the encoded
position comparisons decide. -/
def sRuleBoll (c : ℚ) (mid halfSq : Option ℚ) : ℤ × List String :=
  match mid, halfSq with
  | some m, some hs =>
      if 0 < hs then
        (if bbPosLowB m c hs then (1, ["lower band"])
         else if bbPosHighB m c hs then (-1, ["upper band"])
         else (0, []))
      else (0, [])
  | _, _ => (0, [])

/-- Threshold bands of make_decision (lines 156 to 165). -/
def decideSingle (score : ℤ) : Decision :=
  if 3 ≤ score then Decision.strongBuy
  else if 1 ≤ score then Decision.buy
  else if score ≤ -3 then Decision.strongSell
  else if score ≤ -1 then Decision.sell
  else Decision.hold

/-- make_decision (lines 104 to 167): signed weighted voting in source
order, reasons appended in the same order, then the threshold bands. -/
def make_decision (s : Signals) : Decision × ℤ × List String :=
  let p1 := sRuleRSI s.rsi
  let p2 := sRuleCross s.macdCross
  let p3 := sRuleMACDZero s.macd
  let p4 := sRuleArrange s.maArrange
  let p5 := sRuleVolume s.volumeRatioVal s.priceChange
  let p6 := sRuleBoll s.close s.bbMid s.bbHalfSq
  let score := p1.1 + p2.1 + p3.1 + p4.1 + p5.1 + p6.1
  (decideSingle score, score,
    p1.2 ++ p2.2 ++ p3.2 ++ p4.2 ++ p5.2 ++ p6.2)

/-! ## Specification-side variants (spec section 4.4: a rule whose fields
are undefined is skipped and contributes neither weight nor reason) -/

/-- RSI rule as the specification words it: fires only on a defined
value. -/
def ruleRSISkip (r : Option ℚ) : ℕ × ℕ :=
  match r with
  | none => (0, 0)
  | some x =>
      if x < 30 then (20, 0)
      else if x < 40 then (10, 0)
      else if 70 < x then (0, 20)
      else if 60 < x then (0, 10)
      else (0, 0)

/-- Moving average rule as the specification words it: skipped entirely
when either average is undefined. -/
def ruleMASkip (ma5 ma20 : Option ℚ) : ℕ × ℕ :=
  match ma5, ma20 with
  | some a, some b => if b < a then (10, 0) else (0, 10)
  | _, _ => (0, 0)

/-- The dual-axis scoring block with every rule guarded on its fields
being defined, following the specification words; identical to
computeScores except that it never charges a side because of a missing
field. -/
def computeScoresSkip (s : Snap) : Except Err (ℕ × ℕ) := do
  let p1 := ruleRSISkip s.rsi
  let p2 := ruleMACDHist s.macdHist
  let p3 := ruleKDJZone s.kdjK s.kdjJ
  let p4 := ruleKDJCross s.kdjK s.kdjD
  let p5 := ruleMASkip s.ma5 s.ma20
  let p6 ← ruleVolume s.volumeRatioVal s.close s.prevClose
  let p7 := ruleTrend s.trend
  let p8 := ruleBoll s.close s.bbMid s.bbHalfSq
  pure (p1.1 + p2.1 + p3.1 + p4.1 + p5.1 + p6.1 + p7.1 + p8.1,
        p1.2 + p2.2 + p3.2 + p4.2 + p5.2 + p6.2 + p7.2 + p8.2)

/-- The specification-side scores reachable from a series: snapshot first,
then the guarded scoring. -/
def skipScoresOf (df : List Bar) : Except Err (ℕ × ℕ) := do
  let s ← buildSnap df
  computeScoresSkip s

/-- make_decision with every rule explicitly guarded on defined fields,
following the specification words.  The RSI guard already exists in the
source; the Bollinger rule is the only other rule reading a possibly
missing numeric field, and its guarded form coincides with sRuleBoll. -/
def make_decision_skip (s : Signals) : Decision × ℤ × List String :=
  let p1 := sRuleRSI s.rsi
  let p2 := sRuleCross s.macdCross
  let p3 := sRuleMACDZero s.macd
  let p4 := sRuleArrange s.maArrange
  let p5 := sRuleVolume s.volumeRatioVal s.priceChange
  let p6 :=
    (match s.bbMid, s.bbHalfSq with
     | some m, some hs => sRuleBoll s.close (some m) (some hs)
     | _, _ => (0, []))
  let score := p1.1 + p2.1 + p3.1 + p4.1 + p5.1 + p6.1
  (decideSingle score, score,
    p1.2 ++ p2.2 ++ p3.2 ++ p4.2 ++ p5.2 ++ p6.2)

/-! ## Concrete input series used by the counterexamples and witnesses -/

def mkBar (o h l c v : ℚ) : Bar :=
  { opn := o, high := h, low := l, close := c, volume := v }

/-- Flat 30-bar series of the end-to-end example in the specification. -/
def flat30 : List Bar := List.replicate 30 (mkBar 100 100 100 100 1000)

/-- A 14-bar series with constant close 100 and intraday range 99 to 101:
long enough for RSI and ATR, too short for the 20-bar and 60-bar windows. -/
def df14 : List Bar := List.replicate 14 (mkBar 100 101 99 100 1000)

/-- A single-bar series. -/
def oneBar : List Bar := [mkBar 100 101 99 100 1000]

/-- Twenty bars whose closes are nineteen zeros and one twenty: the sample
and population variances of the full window differ (20 versus 19). -/
def ser20 : List Bar :=
  (List.replicate 19 (mkBar 0 0 0 0 1000)) ++ [mkBar 20 20 20 20 1000]

/-- Strictly increasing close series 1, 2, ..., 15. -/
def prices15 : List ℚ := (List.range 15).map (fun i => (i : ℚ) + 1)

/-! ## Helper lemmas about the rolling machinery -/

theorem rollingApply_length (w : ℕ) (f : List ℚ → ℚ) (xs : List ℚ) :
    (rollingApply w f xs).length = xs.length := by
  simp [rollingApply]

theorem rollingApply_get?_eq (w : ℕ) (f : List ℚ → ℚ) (xs : List ℚ) (i : ℕ)
    (h : i < xs.length) :
    (rollingApply w f xs).get? i =
      some (if w ≤ i + 1 then some (f (windowAt w xs i)) else none) := by
  unfold rollingApply
  rw [List.get?_map, List.get?_range h, Option.map_some']

theorem rollingApply_get?_inv {w : ℕ} {f : List ℚ → ℚ} {xs : List ℚ} {i : ℕ}
    {o : Option ℚ} (h : (rollingApply w f xs).get? i = some o) :
    i < xs.length ∧ o = if w ≤ i + 1 then some (f (windowAt w xs i)) else none := by
  have hi : i < xs.length := by
    by_contra hc
    push_neg at hc
    have hnone : (rollingApply w f xs).get? i = none :=
      List.get?_eq_none.mpr (by rw [rollingApply_length]; exact hc)
    rw [hnone] at h
    exact Option.noConfusion h
  refine ⟨hi, ?_⟩
  have he := rollingApply_get?_eq w f xs i hi
  rw [he] at h
  exact (Option.some_injective _ h).symm

theorem windowAt_length {w : ℕ} {xs : List ℚ} {i : ℕ} (h1 : w ≤ i + 1)
    (h2 : i < xs.length) : (windowAt w xs i).length = w := by
  simp [windowAt]
  omega

theorem mem_windowAt {w : ℕ} {xs : List ℚ} {i : ℕ} {x : ℚ}
    (h : x ∈ windowAt w xs i) : x ∈ xs := by
  have h1 := List.mem_of_mem_drop h
  exact List.mem_of_mem_take h1

theorem diffO_length (xs : List ℚ) : (diffO xs).length = xs.length := by
  cases xs with
  | nil => rfl
  | cons x rest => simp [diffO]

theorem gainsOf_length (xs : List ℚ) : (gainsOf xs).length = xs.length := by
  simp [gainsOf, diffO_length]

theorem lossesOf_length (xs : List ℚ) : (lossesOf xs).length = xs.length := by
  simp [lossesOf, diffO_length]

theorem gainsOf_nonneg {xs : List ℚ} {x : ℚ} (h : x ∈ gainsOf xs) : 0 ≤ x := by
  simp only [gainsOf, List.mem_map] at h
  obtain ⟨d, _, hd⟩ := h
  subst hd
  cases d with
  | none => exact le_refl 0
  | some y =>
      by_cases hy : 0 < y
      · simpa [hy] using le_of_lt hy
      · simp [hy]

theorem lossesOf_nonneg {xs : List ℚ} {x : ℚ} (h : x ∈ lossesOf xs) : 0 ≤ x := by
  simp only [lossesOf, List.mem_map] at h
  obtain ⟨d, _, hd⟩ := h
  subst hd
  cases d with
  | none => exact le_refl 0
  | some y =>
      by_cases hy : y < 0
      · have hny : (0:ℚ) ≤ -y := by linarith
        simpa [hy] using hny
      · simp [hy]

theorem rollingMean_nonneg {w : ℕ} {xs : List ℚ} {i : ℕ} {m : ℚ}
    (hx : ∀ x ∈ xs, 0 ≤ x)
    (h : (rollingMean w xs).get? i = some (some m)) : 0 ≤ m := by
  obtain ⟨hi, ho⟩ := rollingApply_get?_inv h
  by_cases hw : w ≤ i + 1
  · simp [hw] at ho
    have hsum : 0 ≤ (windowAt w xs i).sum :=
      List.sum_nonneg (fun x hxmem => hx x (mem_windowAt hxmem))
    have : 0 ≤ (windowAt w xs i).sum / (w : ℚ) :=
      div_nonneg hsum (by positivity)
    rw [ho]
    exact this
  · simp [hw] at ho

theorem ewmGo_length (a y : ℚ) (xs : List ℚ) :
    (ewmGo a y xs).length = xs.length + 1 := by
  induction xs generalizing y with
  | nil => rfl
  | cons x rest ih => simp [ewmGo, ih]

theorem ewmAlpha_length (a : ℚ) (xs : List ℚ) :
    (ewmAlpha a xs).length = xs.length := by
  cases xs with
  | nil => rfl
  | cons x rest => simp [ewmAlpha, ewmGo_length]

theorem ewmSpan_length (span : ℕ) (xs : List ℚ) :
    (ewmSpan span xs).length = xs.length := by
  simp [ewmSpan, ewmAlpha_length]

theorem zip3With_length (f : ℚ → Option ℚ → Option ℚ → Option ℚ)
    (as : List ℚ) (bs cs : List (Option ℚ)) :
    (zip3With f as bs cs).length = min as.length (min bs.length cs.length) := by
  induction as generalizing bs cs with
  | nil => simp [zip3With]
  | cons a as ih =>
      cases bs with
      | nil => simp [zip3With]
      | cons b bs =>
          cases cs with
          | nil => simp [zip3With]
          | cons c cs => simp [zip3With, ih]; omega

theorem lastOpt_some_imp {w : ℕ} {f : List ℚ → ℚ} {xs : List ℚ} {m : ℚ}
    (h : lastOpt (rollingApply w f xs) = some m) : w ≤ xs.length := by
  unfold lastOpt at h
  rcases xs.eq_nil_or_concat with hnil | ⟨ys, y, hy⟩
  · subst hnil
    simp [rollingApply] at h
  · have hlen : (rollingApply w f xs).length = xs.length := rollingApply_length w f xs
    have hne : xs ≠ [] := by subst hy; simp
    have hpos : 0 < xs.length := List.length_pos.mpr hne
    have hra : (rollingApply w f xs) ≠ [] := by
      intro hc
      rw [hc] at hlen
      simp at hlen
      omega
    rw [List.getLastD_eq_getLast?, List.getLast?_eq_get? _] at h
    rw [hlen] at h
    have hi : xs.length - 1 < xs.length := by omega
    rw [rollingApply_get?_eq w f xs (xs.length - 1) hi] at h
    simp at h
    by_cases hw : w ≤ xs.length - 1 + 1
    · omega
    · simp [hw] at h

theorem penult_isSome {xs : List ℚ} (h : 2 ≤ xs.length) : penult xs ≠ none := by
  unfold penult
  intro hc
  have := List.get?_eq_none.mp hc
  simp at this
  omega

theorem zipWith_get?_opt (f : Option ℚ → Option ℚ → Option ℚ)
    (as bs : List (Option ℚ)) (i : ℕ) :
    (List.zipWith f as bs).get? i =
      (match as.get? i, bs.get? i with
       | some a, some b => some (f a b)
       | _, _ => none) := by
  induction as generalizing bs i with
  | nil => simp
  | cons a as ih =>
      cases bs with
      | nil => simp
      | cons b bs =>
          cases i with
          | zero => simp
          | succ n => simpa using ih bs n

/-! ## Claim theorems -/

def decRank : Decision → ℕ
  | Decision.strongSell => 0
  | Decision.sell => 1
  | Decision.hold => 2
  | Decision.buy => 3
  | Decision.strongBuy => 4

/-- Claim C7: the trend classifier maps a fully defined (MA5, MA20, MA60)
triple exactly as specified: MA5 > MA20 > MA60 gives StrongUp, otherwise
MA5 > MA20 gives Up, otherwise MA5 < MA20 < MA60 gives StrongDown,
otherwise MA5 < MA20 gives Down, otherwise Sideways; and any equality
among the averages never yields a strong trend. -/
theorem trend_classifier_characterization : ∀ a b c : ℚ,
    analyze_trend (some a) (some b) (some c)
      = (if b < a ∧ c < b then Trend.strongUp
         else if b < a then Trend.up
         else if a < b ∧ b < c then Trend.strongDown
         else if a < b then Trend.down
         else Trend.sideways)
    ∧ (a = b ∨ b = c →
        analyze_trend (some a) (some b) (some c) ≠ Trend.strongUp
        ∧ analyze_trend (some a) (some b) (some c) ≠ Trend.strongDown) := by
  intro a b c
  have e1 : analyze_trend (some a) (some b) (some c)
      = (if b < a ∧ c < b then Trend.strongUp
         else if b < a then Trend.up
         else if a < b ∧ b < c then Trend.strongDown
         else if a < b then Trend.down
         else Trend.sideways) := by
    unfold analyze_trend
    simp only [ogtB, oltB, Bool.and_eq_true, decide_eq_true_eq]
  refine ⟨e1, ?_⟩
  rw [e1]
  intro htie
  constructor
  · intro hcontra
    by_cases h1 : b < a ∧ c < b
    · rcases htie with he | he
      · exact absurd h1.1 (by rw [he]; exact lt_irrefl b)
      · exact absurd h1.2 (by rw [he]; exact lt_irrefl c)
    · rw [if_neg h1] at hcontra
      by_cases h2 : b < a
      · rw [if_pos h2] at hcontra; exact Trend.noConfusion hcontra
      · rw [if_neg h2] at hcontra
        by_cases h3 : a < b ∧ b < c
        · rw [if_pos h3] at hcontra; exact Trend.noConfusion hcontra
        · rw [if_neg h3] at hcontra
          by_cases h4 : a < b
          · rw [if_pos h4] at hcontra; exact Trend.noConfusion hcontra
          · rw [if_neg h4] at hcontra; exact Trend.noConfusion hcontra
  · intro hcontra
    by_cases h1 : b < a ∧ c < b
    · rw [if_pos h1] at hcontra; exact Trend.noConfusion hcontra
    · rw [if_neg h1] at hcontra
      by_cases h2 : b < a
      · rw [if_pos h2] at hcontra; exact Trend.noConfusion hcontra
      · rw [if_neg h2] at hcontra
        by_cases h3 : a < b ∧ b < c
        · rcases htie with he | he
          · exact absurd h3.1 (by rw [he]; exact lt_irrefl b)
          · exact absurd h3.2 (by rw [he]; exact lt_irrefl c)
        · rw [if_neg h3] at hcontra
          by_cases h4 : a < b
          · rw [if_pos h4] at hcontra; exact Trend.noConfusion hcontra
          · rw [if_neg h4] at hcontra; exact Trend.noConfusion hcontra

/-- Witness for C7 at concrete inputs: (2, 1, 0) classifies as StrongUp,
and a tie MA5 = MA20 at (1, 1, 0) is not a strong trend. -/
theorem trend_classifier_witness :
    analyze_trend (some 2) (some 1) (some 0) = Trend.strongUp
    ∧ analyze_trend (some 1) (some 1) (some 0) ≠ Trend.strongUp :=
  ⟨by rw [(trend_classifier_characterization 2 1 0).1]; norm_num,
   ((trend_classifier_characterization 1 1 0).2 (Or.inl rfl)).1⟩

/-- Claim C8: both decision mappers are monotone in the buy pressure: for
a fixed sell score the dual-axis decision never moves back toward the sell
side as the buy score grows (and a buy-side decision stays buy-side), and
the single-axis decision is monotone in the signed score, hence in the buy
contribution for fixed remaining contributions. -/
theorem decision_monotone_in_buy :
    (∀ b b2 s : ℕ, b ≤ b2 → decRank (decideDual b s) ≤ decRank (decideDual b2 s))
    ∧ (∀ b b2 s : ℕ, b ≤ b2 →
        (decideDual b s = Decision.buy ∨ decideDual b s = Decision.strongBuy) →
        (decideDual b2 s = Decision.buy ∨ decideDual b2 s = Decision.strongBuy))
    ∧ (∀ (rest c1 c2 : ℤ), c1 ≤ c2 →
        decRank (decideSingle (rest + c1)) ≤ decRank (decideSingle (rest + c2))) := by
  refine ⟨?_, ?_, ?_⟩
  · intro b b2 s hb
    unfold decideDual
    split_ifs <;> simp [decRank] <;> omega
  · intro b b2 s hb hbuy
    unfold decideDual at hbuy ⊢
    split_ifs at hbuy ⊢ <;> simp_all <;> omega
  · intro rest c1 c2 hc
    unfold decideSingle
    split_ifs <;> simp [decRank] <;> omega

/-- Witness for C8: raising the buy score from 35 to 55 at sell score 60
moves Buy to StrongBuy, and raising a single-axis score from 1 to 3 moves
Buy to StrongBuy. -/
theorem decision_monotone_witness :
    decRank (decideDual 35 60) ≤ decRank (decideDual 55 60)
    ∧ (decideDual 55 60 = Decision.buy ∨ decideDual 55 60 = Decision.strongBuy)
    ∧ decRank (decideSingle (0 + 1)) ≤ decRank (decideSingle (0 + 3)) :=
  ⟨decision_monotone_in_buy.1 35 55 60 (by norm_num),
   decision_monotone_in_buy.2.1 35 55 60 (by norm_num) (Or.inl (by with_unfolding_all rfl)),
   decision_monotone_in_buy.2.2 0 1 3 (by norm_num)⟩

/-- Counterexample for C2: at ATR = 5000 (positive) with the source
defaults accountSize = 100000 and riskPercent = 2 the recommendation is 0,
not strictly positive; and at ATR = 0 or missing ATR the call raises
(OverflowError respectively ValueError) instead of withholding the
recommendation while the analysis succeeds. -/
theorem position_size_cex :
    calculate_position_size (some 5000) 100 100000 2 = Except.ok 0
    ∧ calculate_position_size (some 0) 100 100000 2 = Except.error Err.infToInt
    ∧ calculate_position_size none 100 100000 2 = Except.error Err.nanToInt :=
  ⟨by with_unfolding_all rfl, by with_unfolding_all rfl, by with_unfolding_all rfl⟩

/-- Claim C2 as amended: for positive ATR the recommendation equals
floor(accountSize * riskPercent/100 / ATR) (truncation toward zero agrees
with floor on the nonnegative quotient), and it is at least 1 exactly when
ATR does not exceed the risk amount; a zero ATR with a nonzero risk amount
raises OverflowError and a missing ATR raises ValueError, so the analysis
crashes rather than withholding the recommendation. -/
theorem position_size_amended :
    (∀ a price acc rp : ℚ, 0 < a → 0 ≤ acc * (rp / 100) →
        calculate_position_size (some a) price acc rp =
          Except.ok (Rat.floor (acc * (rp / 100) / a)))
    ∧ (∀ (a price acc rp : ℚ) (z : ℤ), 0 < a →
        calculate_position_size (some a) price acc rp = Except.ok z →
        (1 ≤ z ↔ a ≤ acc * (rp / 100)))
    ∧ (∀ price acc rp : ℚ, acc * (rp / 100) ≠ 0 →
        calculate_position_size (some 0) price acc rp = Except.error Err.infToInt)
    ∧ (∀ price acc rp : ℚ,
        calculate_position_size none price acc rp = Except.error Err.nanToInt) := by
  refine ⟨?_, ?_, ?_, ?_⟩
  · intro a price acc rp ha hra
    have hane : a ≠ 0 := ne_of_gt ha
    have hq : 0 ≤ acc * (rp / 100) / a := div_nonneg hra (le_of_lt ha)
    simp [calculate_position_size, hane, truncQ, hq]
  · intro a price acc rp z ha hz
    have hane : a ≠ 0 := ne_of_gt ha
    simp [calculate_position_size, hane] at hz
    subst hz
    unfold truncQ
    by_cases hq : 0 ≤ acc * (rp / 100) / a
    · rw [if_pos hq]
      have h1 : (1 ≤ Rat.floor (acc * (rp / 100) / a)) ↔
          ((1 : ℚ) ≤ acc * (rp / 100) / a) := by
        rw [Rat.le_floor]
        norm_num
      rw [h1, one_le_div ha]
    · rw [if_neg hq]
      push_neg at hq
      constructor
      · intro hcontra
        exfalso
        have hfl : (0 : ℤ) ≤ Rat.floor (-(acc * (rp / 100) / a)) := by
          rw [Rat.le_floor]
          push_cast
          linarith
        omega
      · intro hcontra
        exfalso
        have : acc * (rp / 100) / a < 0 := hq
        have hlt : acc * (rp / 100) < 0 := by
          by_contra hcc
          push_neg at hcc
          exact absurd (div_nonneg hcc (le_of_lt ha)) (not_le.mpr hq)
        linarith
  · intro price acc rp hra
    simp [calculate_position_size, hra]
  · intro price acc rp
    rfl

/-- Witness for C2 as amended, at ATR = 2, accountSize = 100000 and
riskPercent = 2 (the source defaults): the recommendation is
floor(2000/2) = 1000 and it is at least 1 since 2 <= 2000. -/
theorem position_size_witness :
    calculate_position_size (some 2) 100 100000 2 =
      Except.ok (Rat.floor ((100000 : ℚ) * (2 / 100) / 2))
    ∧ (1 ≤ (1000 : ℤ) ↔ (2 : ℚ) ≤ 100000 * (2 / 100))
    ∧ calculate_position_size (some 0) 100 100000 2 = Except.error Err.infToInt
    ∧ calculate_position_size none 100 100000 2 = Except.error Err.nanToInt :=
  ⟨position_size_amended.1 2 100 100000 2 (by norm_num) (by norm_num),
   position_size_amended.2.1 2 100 100000 2 1000 (by norm_num)
     (by with_unfolding_all rfl),
   position_size_amended.2.2.1 100 100000 2 (by norm_num),
   position_size_amended.2.2.2 100 100000 2⟩

/-- Counterexample for C6: on twenty closes made of nineteen zeros and one
twenty, the squared Bollinger half width computed by the source is
4 * 20 = 80 (sample variance, divisor 19), while the claimed population
standard deviation would give 4 * 19 = 76; hence the divisor is not the
window size. -/
theorem bollinger_population_cex :
    lastOpt (calculate_bollinger_bands (closesOf ser20) 20 2).halfSq = some 80
    ∧ lastOpt (rollingVarPop 20 (closesOf ser20)) = some 19
    ∧ (80 : ℚ) ≠ 2 * 2 * 19 :=
  ⟨by with_unfolding_all rfl, by with_unfolding_all rfl, by norm_num⟩

/-- Claim C6 as amended: the Bollinger middle band is SMA(20) and the
squared half width is 4 times the rolling SAMPLE variance (divisor 19 =
window - 1, pandas ddof = 1), not the population variance; wherever both
are defined, 19 times the sample variance equals 20 times the population
variance over the same window. -/
theorem sampVar_pop_relation {l : List ℚ} (h : l.length = 20) :
    19 * sampVarWin l = 20 * popVarWin l := by
  simp only [sampVarWin, popVarWin, h]
  push_cast
  norm_num
  rw [← mul_div_assoc, ← mul_div_assoc,
    mul_div_cancel_left₀ _ (by norm_num : (19:ℚ) ≠ 0),
    mul_div_cancel_left₀ _ (by norm_num : (20:ℚ) ≠ 0)]

theorem bollinger_sample_variance_amended :
    ∀ (prices : List ℚ) (i : ℕ) (vs vp : ℚ),
      (rollingVarSamp 20 prices).get? i = some (some vs) →
      (rollingVarPop 20 prices).get? i = some (some vp) →
      19 * vs = 20 * vp
      ∧ (calculate_bollinger_bands prices 20 2).mid = rollingMean 20 prices
      ∧ (calculate_bollinger_bands prices 20 2).halfSq.get? i = some (some (4 * vs)) := by
  intro prices i vs vp hs hp
  obtain ⟨hi, hos⟩ := rollingApply_get?_inv hs
  obtain ⟨-, hop⟩ := rollingApply_get?_inv hp
  by_cases hw : 20 ≤ i + 1
  · rw [if_pos hw] at hos hop
    have hvs : vs = sampVarWin (windowAt 20 prices i) := Option.some.inj hos
    have hvp : vp = popVarWin (windowAt 20 prices i) := Option.some.inj hop
    have hlen : (windowAt 20 prices i).length = 20 := windowAt_length hw hi
    refine ⟨?_, rfl, ?_⟩
    · rw [hvs, hvp]
      exact sampVar_pop_relation hlen
    · show ((rollingVarSamp 20 prices).map (Option.map (fun v => (2:ℚ) * 2 * v))).get? i
        = some (some (4 * vs))
      rw [List.get?_map, hs]
      simp only [Option.map_some']
      congr 2
      ring
  · rw [if_neg hw] at hos
    exact Option.noConfusion hos

/-- Counterexample for C3: on the flat 30-bar series the dual-axis engine
does not produce Hold with zero scores: it aborts with OverflowError while
converting the zero-ATR position size (line 240 runs before the decision);
and the RSI of the flat series is missing (0/0 = NaN), not the neutral 50. -/
theorem flat_series_cex :
    generate_signal flat30 = Except.error Err.infToInt
    ∧ (analyze_signals flat30).map Signals.rsi = Except.ok none :=
  ⟨by with_unfolding_all rfl, by with_unfolding_all rfl⟩

/-- Claim C3 as amended: on the flat 30-bar series the RSI is undefined
(average gain = average loss = 0 gives NaN, with no neutral-50 clamp in the
source), the Bollinger half width is zero; the single-axis engine returns
Hold with score 0 and no reasons; the dual-axis engine raises OverflowError
on the zero-ATR position size instead of producing a decision. -/
theorem flat_series_amended :
    (analyze_signals flat30).map (fun s => (s.rsi, s.bbHalfSq, make_decision s))
      = Except.ok (none, some 0, (Decision.hold, 0, []))
    ∧ generate_signal flat30 = Except.error Err.infToInt :=
  ⟨by with_unfolding_all rfl, by with_unfolding_all rfl⟩

/-- Counterexample for C5: the KDJ K, D and J series on a single-bar input
carry the defined sentinel value 50 at position 0, although fewer than
n = 9 bars of history exist there: the source fills the undefined RSV
entries with 50 before smoothing, so KDJ is sentinel-filled, not
left-padded with undefined. -/
theorem kdj_defined_early_cex :
    (calculate_kdj [2] [1] [3/2] 9 3 3).k = [50]
    ∧ (calculate_kdj [2] [1] [3/2] 9 3 3).d = [50]
    ∧ (calculate_kdj [2] [1] [3/2] 9 3 3).j = [50] := by
  with_unfolding_all exact ⟨rfl, rfl, rfl⟩

/-- Claim C5 as amended: every rolling computation returns a series of the
same length as its input that is undefined at every position with fewer
than period observations (this covers SMA, volume MA, Bollinger middle and
width, ATR and support/resistance, all instances of rollingApply), and
calculate_rsi likewise returns a length-preserving series undefined before
position 13; but the KDJ K, D and J series, while length-preserving, are
total: their undefined RSV entries are replaced by the sentinel 50. -/
theorem indicator_alignment_amended :
    (∀ (w : ℕ) (f : List ℚ → ℚ) (xs : List ℚ),
        (rollingApply w f xs).length = xs.length)
    ∧ (∀ (w : ℕ) (f : List ℚ → ℚ) (xs : List ℚ) (i : ℕ),
        i < xs.length → i + 1 < w → (rollingApply w f xs).get? i = some none)
    ∧ (∀ prices : List ℚ, (calculate_rsi prices 14).length = prices.length)
    ∧ (∀ (prices : List ℚ) (i : ℕ), i < prices.length → i < 13 →
        (calculate_rsi prices 14).get? i = some none)
    ∧ (∀ high low close : List ℚ, high.length = close.length →
        low.length = close.length →
        (calculate_kdj high low close 9 3 3).k.length = close.length
        ∧ (calculate_kdj high low close 9 3 3).d.length = close.length
        ∧ (calculate_kdj high low close 9 3 3).j.length = close.length) := by
  refine ⟨rollingApply_length, ?_, ?_, ?_, ?_⟩
  · intro w f xs i hi hw
    rw [rollingApply_get?_eq w f xs i hi, if_neg (by omega)]
  · intro prices
    unfold calculate_rsi
    rw [List.length_zipWith]
    unfold rsiAvgGain rsiAvgLoss rollingMean
    rw [rollingApply_length, rollingApply_length, gainsOf_length, lossesOf_length]
    omega
  · intro prices i hi hw
    unfold calculate_rsi
    rw [zipWith_get?_opt]
    have hg : (rsiAvgGain prices 14).get? i = some none := by
      unfold rsiAvgGain rollingMean
      have hlen : i < (gainsOf prices).length := by rw [gainsOf_length]; exact hi
      rw [rollingApply_get?_eq _ _ _ i hlen, if_neg (by omega)]
    have hl : (rsiAvgLoss prices 14).get? i = some none := by
      unfold rsiAvgLoss rollingMean
      have hlen : i < (lossesOf prices).length := by rw [lossesOf_length]; exact hi
      rw [rollingApply_get?_eq _ _ _ i hlen, if_neg (by omega)]
    rw [hg, hl]
  · intro high low close hh hl
    unfold calculate_kdj
    have hrsv : ((kdjRsvRaw high low close 9).map (fun o => o.getD 50)).length
        = close.length := by
      rw [List.length_map]
      unfold kdjRsvRaw
      rw [zip3With_length]
      unfold rollingMin rollingMax
      rw [rollingApply_length, rollingApply_length, hh, hl]
      omega
    refine ⟨?_, ?_, ?_⟩
    · simp only
      rw [ewmAlpha_length, hrsv]
    · simp only
      rw [ewmAlpha_length, ewmAlpha_length, hrsv]
    · simp only
      rw [List.length_zipWith, ewmAlpha_length, ewmAlpha_length, ewmAlpha_length, hrsv]
      omega

/-- Witness for C5 as amended: concrete instantiations of each guarded
conjunct (an early Bollinger variance position, an early RSI position, and
the KDJ lengths on a one-bar input). -/
theorem indicator_alignment_witness :
    (rollingApply 20 sampVarWin (closesOf ser20)).get? 3 = some none
    ∧ (calculate_rsi prices15 14).get? 5 = some none
    ∧ ((calculate_kdj [2] [1] [(3:ℚ)/2] 9 3 3).k.length = 1
       ∧ (calculate_kdj [2] [1] [(3:ℚ)/2] 9 3 3).d.length = 1
       ∧ (calculate_kdj [2] [1] [(3:ℚ)/2] 9 3 3).j.length = 1) :=
  ⟨indicator_alignment_amended.2.1 20 sampVarWin (closesOf ser20) 3
      (by with_unfolding_all decide) (by norm_num),
   indicator_alignment_amended.2.2.2.1 prices15 5
      (by with_unfolding_all decide) (by norm_num),
   indicator_alignment_amended.2.2.2.2 [2] [1] [(3:ℚ)/2] rfl rfl⟩

/-- Claim C4: wherever the RSI is defined it lies in [0, 100]; and at any
position where the rolling average loss is exactly 0 while the average
gain is positive (as on a strictly increasing close series), the RSI is
exactly 100 (the float quotient gain/0 is +infinity and
100 - 100/(1 + inf) collapses to 100, never NaN). -/
theorem rsi_bounded_and_clamped :
    (∀ (prices : List ℚ) (i : ℕ) (x : ℚ),
        (calculate_rsi prices 14).get? i = some (some x) → 0 ≤ x ∧ x ≤ 100)
    ∧ (∀ (prices : List ℚ) (i : ℕ) (g : ℚ),
        (rsiAvgLoss prices 14).get? i = some (some 0) →
        (rsiAvgGain prices 14).get? i = some (some g) → 0 < g →
        (calculate_rsi prices 14).get? i = some (some 100)) := by
  constructor
  · intro prices i x hx
    unfold calculate_rsi at hx
    rw [zipWith_get?_opt] at hx
    rcases hog : (rsiAvgGain prices 14).get? i with _ | og <;> rw [hog] at hx
    · exact Option.noConfusion hx
    rcases hol : (rsiAvgLoss prices 14).get? i with _ | ol <;> rw [hol] at hx
    · exact Option.noConfusion hx
    simp only at hx
    have hx2 := Option.some.inj hx
    rcases og with _ | g
    · exact Option.noConfusion hx2
    rcases ol with _ | l
    · exact Option.noConfusion hx2
    have hx3 : (if l = 0 then (if g = 0 then none else some (100:ℚ))
        else some (100 - 100 / (1 + g / l))) = some x := hx2
    have hg0 : 0 ≤ g :=
      rollingMean_nonneg (fun y hy => gainsOf_nonneg hy) hog
    have hl0 : 0 ≤ l :=
      rollingMean_nonneg (fun y hy => lossesOf_nonneg hy) hol
    by_cases hl : l = 0
    · rw [if_pos hl] at hx3
      by_cases hg : g = 0
      · rw [if_pos hg] at hx3
        exact Option.noConfusion hx3
      · rw [if_neg hg] at hx3
        have : (100 : ℚ) = x := Option.some.inj hx3
        rw [← this]
        norm_num
    · rw [if_neg hl] at hx3
      have hxv : 100 - 100 / (1 + g / l) = x := Option.some.inj hx3
      have hlpos : 0 < l := lt_of_le_of_ne hl0 (fun he => hl he.symm)
      have hrs : 0 ≤ g / l := div_nonneg hg0 (le_of_lt hlpos)
      have hden : (0:ℚ) < 1 + g / l := by linarith
      have ht1 : 100 / (1 + g / l) ≤ 100 := by
        rw [div_le_iff hden]
        nlinarith
      have ht0 : 0 < 100 / (1 + g / l) := by positivity
      constructor <;> linarith
  · intro prices i g hl hg hgpos
    unfold calculate_rsi
    rw [zipWith_get?_opt, hg, hl]
    simp [ne_of_gt hgpos]

/-- Witness for C4 on the strictly increasing series 1, ..., 15: at
position 13 the average loss is 0, the average gain is 13/14 > 0, the RSI
is exactly 100, and 100 lies in [0, 100]. -/
theorem rsi_witness :
    (calculate_rsi prices15 14).get? 13 = some (some 100)
    ∧ (0 ≤ (100:ℚ) ∧ (100:ℚ) ≤ 100) :=
  ⟨rsi_bounded_and_clamped.2 prices15 13 (13/14)
      (by with_unfolding_all rfl) (by with_unfolding_all rfl) (by norm_num),
   rsi_bounded_and_clamped.1 prices15 13 100 (by with_unfolding_all rfl)⟩

theorem ruleRSI_eq_skip (r : Option ℚ) : ruleRSI r = ruleRSISkip r := by
  cases r with
  | none => rfl
  | some x =>
      simp only [ruleRSI, ruleRSISkip, oltB, ogtB, decide_eq_true_eq]

/-- Counterexample for C1: on the 14-bar series df14 the 20-bar moving
average is undefined, yet the dual-axis engine charges the sell side with
the weight 10 of the MA rule (total sell score 35, decision Sell), while
the specification-side scoring that skips rules with undefined fields
yields only 25. -/
theorem undefined_ma_scores_cex :
    (generate_signal df14).map (fun r => (r.buyScore, r.sellScore, r.decision))
      = Except.ok (0, 35, Decision.sell)
    ∧ skipScoresOf df14 = Except.ok (0, 25) :=
  ⟨by with_unfolding_all rfl, by with_unfolding_all rfl⟩

/-- Claim C1 as amended: in make_decision every rule with an undefined
field is skipped (the engine coincides with its field-guarded variant);
in generate_signal the same holds for every rule except the moving average
comparison: when MA5 or MA20 is undefined its else branch adds sell weight
10 (and generate_signal emits no reason strings at all). -/
theorem undefined_fields_amended :
    (∀ s : Signals, make_decision s = make_decision_skip s)
    ∧ (∀ s : Snap, computeScores s =
        (computeScoresSkip s).map
          (fun p => (p.1, p.2 + (if s.ma5 = none ∨ s.ma20 = none then 10 else 0)))) := by
  constructor
  · intro s
    unfold make_decision make_decision_skip
    rcases hbm : s.bbMid with _ | m <;> rcases hbh : s.bbHalfSq with _ | hs <;>
      simp [sRuleBoll, hbm, hbh]
  · intro s
    unfold computeScores computeScoresSkip
    rcases hv : ruleVolume s.volumeRatioVal s.close s.prevClose with e | p6
    · rfl
    · simp only [bind, Except.bind, pure, Except.pure, Except.map, Except.ok.injEq,
        Prod.mk.injEq]
      rw [ruleRSI_eq_skip]
      rcases h5 : s.ma5 with _ | a <;> rcases h20 : s.ma20 with _ | b <;>
        simp [ruleMA, ruleMASkip, ogtB, oltB, h5, h20] <;> ring

theorem ruleRSI_bound (r : Option ℚ) : (ruleRSI r).1 ≤ 20 ∧ (ruleRSI r).2 ≤ 20 := by
  unfold ruleRSI
  split_ifs <;> constructor <;> norm_num

theorem ruleMACDHist_bound (h : ℚ) :
    (ruleMACDHist h).1 ≤ 15 ∧ (ruleMACDHist h).2 ≤ 15 := by
  unfold ruleMACDHist
  split_ifs <;> constructor <;> norm_num

theorem ruleKDJZone_bound (k j : ℚ) :
    (ruleKDJZone k j).1 ≤ 15 ∧ (ruleKDJZone k j).2 ≤ 15 := by
  unfold ruleKDJZone
  split_ifs <;> constructor <;> norm_num

theorem ruleKDJCross_bound (k d : ℚ) :
    (ruleKDJCross k d).1 ≤ 10 ∧ (ruleKDJCross k d).2 ≤ 10 := by
  unfold ruleKDJCross
  split_ifs <;> constructor <;> norm_num

theorem ruleMA_bound (a b : Option ℚ) : (ruleMA a b).1 ≤ 10 ∧ (ruleMA a b).2 ≤ 10 := by
  unfold ruleMA
  split_ifs <;> constructor <;> norm_num

theorem ruleTrend_bound (t : Trend) : (ruleTrend t).1 ≤ 10 ∧ (ruleTrend t).2 ≤ 10 := by
  cases t <;> constructor <;> norm_num [ruleTrend]

theorem ruleBoll_bound (c : ℚ) (m hs : Option ℚ) :
    (ruleBoll c m hs).1 ≤ 5 ∧ (ruleBoll c m hs).2 ≤ 5 := by
  unfold ruleBoll
  rcases m with _ | mv <;> rcases hs with _ | hv
  · constructor <;> norm_num
  · constructor <;> norm_num
  · constructor <;> norm_num
  · show (if ltBelowBandB mv c hv then ((5:ℕ), (0:ℕ))
        else if ltBelowBandB c mv hv then (0, 5) else (0, 0)).1 ≤ 5
      ∧ (if ltBelowBandB mv c hv then ((5:ℕ), (0:ℕ))
        else if ltBelowBandB c mv hv then (0, 5) else (0, 0)).2 ≤ 5
    split_ifs <;> constructor <;> norm_num

theorem ruleVolume_bound {vr c : ℚ} {pc : Option ℚ} {q : ℕ × ℕ}
    (h : ruleVolume vr c pc = Except.ok q) : q.1 ≤ 10 ∧ q.2 ≤ 10 := by
  unfold ruleVolume at h
  split_ifs at h
  · rcases pc with _ | pcv
    · exact Except.noConfusion h
    · have h2 : (if pcv < c then Except.ok ((10:ℕ), (0:ℕ))
          else Except.ok ((0:ℕ), (10:ℕ))) = Except.ok q := h
      split_ifs at h2 <;>
        (have hq := Except.ok.inj h2; rw [← hq]; constructor <;> norm_num)
  · have hq := Except.ok.inj h
    rw [← hq]
    constructor <;> norm_num

theorem computeScores_le {s : Snap} {p : ℕ × ℕ}
    (h : computeScores s = Except.ok p) : p.1 ≤ 95 ∧ p.2 ≤ 95 := by
  unfold computeScores at h
  rcases hv : ruleVolume s.volumeRatioVal s.close s.prevClose with e | p6 <;>
    rw [hv] at h
  · simp [bind, Except.bind] at h
  · simp only [bind, Except.bind, pure, Except.pure, Except.ok.injEq] at h
    obtain ⟨b1, b1s⟩ := ruleRSI_bound s.rsi
    obtain ⟨b2, b2s⟩ := ruleMACDHist_bound s.macdHist
    obtain ⟨b3, b3s⟩ := ruleKDJZone_bound s.kdjK s.kdjJ
    obtain ⟨b4, b4s⟩ := ruleKDJCross_bound s.kdjK s.kdjD
    obtain ⟨b5, b5s⟩ := ruleMA_bound s.ma5 s.ma20
    obtain ⟨b6, b6s⟩ := ruleVolume_bound hv
    obtain ⟨b7, b7s⟩ := ruleTrend_bound s.trend
    obtain ⟨b8, b8s⟩ := ruleBoll_bound s.close s.bbMid s.bbHalfSq
    rw [← h]
    constructor <;> simp only <;> omega

/-- Claim C10: on every input on which generate_signal succeeds, the two
scores are bounded by 95, the sum of the same-side rule weights
20 + 15 + 15 + 10 + 10 + 10 + 10 + 5 (and they are nonnegative by
construction, the accumulators only ever grow), so the advertised maximum
of 100 is never reached. -/
theorem dual_scores_bounded : ∀ (df : List Bar) (r : SigResult),
    generate_signal df = Except.ok r → r.buyScore ≤ 95 ∧ r.sellScore ≤ 95 := by
  intro df r h
  unfold generate_signal at h
  rcases hb : buildSnap df with e | s <;> rw [hb] at h
  · simp [bind, Except.bind] at h
  · simp only [bind, Except.bind] at h
    rcases hc : computeScores s with e | p <;> rw [hc] at h
    · simp at h
    · simp only at h
      rcases hp : calculate_position_size s.atr s.close 100000 2 with e | z <;>
        rw [hp] at h
      · simp at h
      · simp only [pure, Except.pure, Except.ok.injEq] at h
        obtain ⟨h1, h2⟩ := computeScores_le hc
        rw [← h]
        exact ⟨h1, h2⟩

/-- The concrete output of generate_signal on df14, used by the witness. -/
def res14 : SigResult :=
  { latestPrice := 100, rsi := none, atr := some 2, trend := Trend.sideways,
    buyScore := 0, sellScore := 35, decision := Decision.sell,
    positionSize := 1000 }

/-- Witness for C10 at the concrete series df14, whose analysis succeeds
with buy score 0 and sell score 35. -/
theorem dual_scores_bounded_witness : res14.buyScore ≤ 95 ∧ res14.sellScore ≤ 95 :=
  dual_scores_bounded df14 res14 (by with_unfolding_all rfl)

theorem ruleVolume_ok {vr c : ℚ} {pc : Option ℚ}
    (h : pc ≠ none ∨ ¬ ((3:ℚ)/2 < vr)) : ∃ q, ruleVolume vr c pc = Except.ok q := by
  by_cases hvr : (3:ℚ)/2 < vr
  · rcases pc with _ | pcv
    · rcases h with h | h
      · exact absurd rfl h
      · exact absurd hvr h
    · refine ⟨if pcv < c then (10, 0) else (0, 10), ?_⟩
      show (if (3:ℚ)/2 < vr then
          (if pcv < c then Except.ok ((10:ℕ), (0:ℕ)) else Except.ok ((0:ℕ), (10:ℕ)))
        else Except.ok (0, 0))
        = Except.ok (if pcv < c then ((10:ℕ), (0:ℕ)) else ((0:ℕ), (10:ℕ)))
      rw [if_pos hvr]
      split_ifs <;> rfl
  · refine ⟨(0, 0), ?_⟩
    unfold ruleVolume
    rw [if_neg hvr]

theorem computeScores_ok {s : Snap}
    (h : s.prevClose ≠ none ∨ ¬ ((3:ℚ)/2 < s.volumeRatioVal)) :
    ∃ p, computeScores s = Except.ok p := by
  obtain ⟨q, hq⟩ := ruleVolume_ok (c := s.close) h
  have hcs : computeScores s =
      Except.ok
        ((ruleRSI s.rsi).1 + (ruleMACDHist s.macdHist).1
            + (ruleKDJZone s.kdjK s.kdjJ).1 + (ruleKDJCross s.kdjK s.kdjD).1
            + (ruleMA s.ma5 s.ma20).1 + q.1 + (ruleTrend s.trend).1
            + (ruleBoll s.close s.bbMid s.bbHalfSq).1,
          (ruleRSI s.rsi).2 + (ruleMACDHist s.macdHist).2
            + (ruleKDJZone s.kdjK s.kdjJ).2 + (ruleKDJCross s.kdjK s.kdjD).2
            + (ruleMA s.ma5 s.ma20).2 + q.2 + (ruleTrend s.trend).2
            + (ruleBoll s.close s.bbMid s.bbHalfSq).2) := by
    unfold computeScores
    rw [hq]
    rfl
  exact ⟨_, hcs⟩

theorem buildSnap_ok {df : List Bar} (h : df ≠ []) :
    ∃ s, buildSnap df = Except.ok s := by
  unfold buildSnap
  rw [if_neg (fun hc => h (List.length_eq_zero.mp hc))]
  exact ⟨_, rfl⟩

theorem position_size_not_index (atr : Option ℚ) (price acc rp : ℚ) :
    calculate_position_size atr price acc rp ≠ Except.error Err.indexError := by
  rcases atr with _ | a
  · intro hc
    exact Err.noConfusion (Except.error.inj hc)
  · intro hc
    have hc2 : (if a = 0 then
        (if acc * (rp / 100) = 0 then Except.error Err.nanToInt
         else Except.error Err.infToInt)
        else Except.ok (truncQ (acc * (rp / 100) / a)))
        = Except.error Err.indexError := hc
    split_ifs at hc2 <;>
      first
        | exact Err.noConfusion (Except.error.inj hc2)
        | exact Except.noConfusion hc2

theorem snap_volume_guard {df : List Bar} {s : Snap}
    (hb : buildSnap df = Except.ok s) (hv : (3:ℚ)/2 < s.volumeRatioVal) :
    s.prevClose ≠ none := by
  unfold buildSnap at hb
  by_cases h0 : df.length = 0
  · rw [if_pos h0] at hb
    exact Except.noConfusion hb
  · rw [if_neg h0] at hb
    dsimp only at hb
    have hs := Except.ok.inj hb
    subst hs
    dsimp only at hv ⊢
    rcases hm : lastOpt (calculate_volume_ma (volumesOf df) 20) with _ | m
    · rw [hm] at hv
      exact absurd (show (3:ℚ)/2 < 1 from hv) (by norm_num)
    · rw [hm] at hv
      by_cases hpos : 0 < m
      · have hm2 : lastOpt (rollingApply 20 (fun l => l.sum / ((20:ℕ) : ℚ))
            (volumesOf df)) = some m := hm
        have h20 : 20 ≤ (volumesOf df).length := lastOpt_some_imp hm2
        have hvl : (volumesOf df).length = df.length := by simp [volumesOf]
        apply penult_isSome
        simp only [closesOf, List.length_map]
        omega
      · have hv2 : (3:ℚ)/2 <
            (if 0 < m then (volumesOf df).getLastD 0 / m else 1) := hv
        rw [if_neg hpos] at hv2
        exact absurd hv2 (by norm_num)

/-- Counterexample for C9: on a single-bar series generate_signal fails
with ValueError from int(NaN) on the missing ATR, not with the IndexError
an unconditional read of the second-latest bar would produce: its only
second-latest read sits inside the volume rule, which cannot fire without
a full 20-bar volume MA window. -/
theorem generate_signal_no_index_cex :
    generate_signal oneBar = Except.error Err.nanToInt
    ∧ Err.nanToInt ≠ Err.indexError :=
  ⟨by with_unfolding_all rfl, by decide⟩

/-- Claim C9 as amended: analyze_signals reads the second-latest bar
unconditionally, so every series with fewer than two bars raises
IndexError there; generate_signal however reads the second-latest close
only inside the volume rule, whose guard requires a positive 20-bar
volume moving average, so for every nonempty series generate_signal never
fails with IndexError (short series fail later, converting the undefined
ATR with int()). -/
theorem index_guard_amended :
    (∀ df : List Bar, df.length < 2 → analyze_signals df = Except.error Err.indexError)
    ∧ (∀ df : List Bar, df ≠ [] → generate_signal df ≠ Except.error Err.indexError) := by
  constructor
  · intro df h
    unfold analyze_signals
    rw [if_pos h]
  · intro df hne h
    obtain ⟨s, hb⟩ := buildSnap_ok hne
    have hside : s.prevClose ≠ none ∨ ¬ ((3:ℚ)/2 < s.volumeRatioVal) := by
      by_cases hvr : (3:ℚ)/2 < s.volumeRatioVal
      · exact Or.inl (snap_volume_guard hb hvr)
      · exact Or.inr hvr
    obtain ⟨p, hp⟩ := computeScores_ok hside
    unfold generate_signal at h
    rw [hb] at h
    simp only [bind, Except.bind] at h
    rw [hp] at h
    simp only [bind, Except.bind] at h
    rcases hps : calculate_position_size s.atr s.close 100000 2 with e | z
    · rw [hps] at h
      have he : e = Err.indexError := Except.error.inj h
      exact position_size_not_index s.atr s.close 100000 2 (by rw [hps, he])
    · rw [hps] at h
      simp only [pure, Except.pure] at h
      exact Except.noConfusion h

/-- Witness for C9 as amended at the single-bar series: analyze_signals
raises IndexError there, generate_signal does not. -/
theorem index_guard_witness :
    analyze_signals oneBar = Except.error Err.indexError
    ∧ generate_signal oneBar ≠ Except.error Err.indexError :=
  ⟨index_guard_amended.1 oneBar (by with_unfolding_all decide),
   index_guard_amended.2 oneBar (by with_unfolding_all decide)⟩

/-- Witness for C6 as amended at the concrete series ser20, last position:
sample variance 20, population variance 19, and the code half width
squared is 4 * 20. -/
theorem bollinger_sample_variance_witness :
    19 * (20:ℚ) = 20 * 19
    ∧ (calculate_bollinger_bands (closesOf ser20) 20 2).mid
        = rollingMean 20 (closesOf ser20)
    ∧ (calculate_bollinger_bands (closesOf ser20) 20 2).halfSq.get? 19
        = some (some (4 * 20)) :=
  bollinger_sample_variance_amended (closesOf ser20) 19 20 19
    (by with_unfolding_all rfl) (by with_unfolding_all rfl)
